import Mathlib

/-!
Shallow embedding of the Books Dashboard ETL core (src/app.py).

This file embeds the data model and the operations of the dashboard's
logical core — the cleaner (`clean_data`), the column detector
(`detect_column`), the scraper's page loop (`scrape_books_data`), and the
three view operations of `main` (price-ceiling filter, availability
filter, title search) together with the session-state transitions of the
three load actions — and proves or refutes the frozen claims about them.

Conventions of the embedding:
* A pandas cell is a `Cell`: a string, a float (modelled as `ℚ`), an
  integer, or the missing value `NaN`.
* A column is a `List Cell`; a table row is a `Row` of three cells; a
  table is a `List Row`.
* A vectorized pandas statement that can raise is a function into
  `Option`; `none` models the raised exception.  A `try/except` around a
  sequence of statements is modelled by matching on those `Option`s: the
  state reached before the first `none` is what the except-arm leaves
  behind.
* Python `float(...)` / `pd.to_numeric` on a string is `parseFloat?`,
  supporting an optional sign, digits, and at most one decimal point
  (the only shapes the data exercises); Python `int(...)` / `astype(int)`
  truncation toward zero is `truncQ`.
* Python's `str.lower` is `lowerStr` (per-character `Char.toLower`) and
  the (regex-free) substring tests of `str.contains` are `strContains`.
-/

/-- A pandas cell: a string, a float (as `ℚ`), an integer, or NaN. -/
inductive Cell where
  | str (s : String)
  | num (q : ℚ)
  | int (z : ℤ)
  | nan
deriving DecidableEq, Repr

/-- Digits of a numeral read left to right, as in positional notation. -/
def digitsVal (ds : List Char) : ℕ :=
  ds.foldl (fun a c => 10 * a + (c.toNat - 48)) 0

/-- Strip leading and trailing whitespace, as Python `float()` does. -/
def trimChars (cs : List Char) : List Char :=
  ((cs.dropWhile Char.isWhitespace).reverse.dropWhile Char.isWhitespace).reverse

/-- Split a character list at every `'.'` (like `str.split('.')`). -/
def splitOnDot : List Char → List (List Char)
  | [] => [[]]
  | '.' :: rest => [] :: splitOnDot rest
  | c :: rest =>
    match splitOnDot rest with
    | p :: ps => (c :: p) :: ps
    | [] => [[c]]

/-- Model of `float(s)` and of `pd.to_numeric` on the string `s`: optional surrounding
whitespace, optional sign, digits with at most one decimal point, at
least one digit.  `none` models the raised `ValueError`. -/
def parseFloat? (s : String) : Option ℚ :=
  let (sign, body) :=
    match trimChars s.data with
    | '-' :: rest => ((-1 : ℤ), rest)
    | '+' :: rest => ((1 : ℤ), rest)
    | cs => ((1 : ℤ), cs)
  match splitOnDot body with
  | [ip] =>
    if ip ≠ [] ∧ ip.all Char.isDigit then
      some (mkRat (sign * (digitsVal ip : ℤ)) 1)
    else none
  | [ip, fp] =>
    if (ip ≠ [] ∨ fp ≠ []) ∧ ip.all Char.isDigit ∧ fp.all Char.isDigit then
      some (mkRat (sign * ((digitsVal ip * 10 ^ fp.length + digitsVal fp : ℕ) : ℤ))
        (10 ^ fp.length))
    else none
  | _ => none

/-- Python `int(q)` / numpy `astype(int)`: truncation toward zero. -/
def truncQ (q : ℚ) : ℤ := q.num.tdiv (q.den : ℤ)

/-- Model of `str.replace('Â£', '')` specialised to its fixed two-character
pattern: removes every occurrence of `'Â'` followed by `'£'`, left to
right, non-overlapping — the mojibake artifact the cleaner strips. -/
def stripPound : List Char → List Char
  | 'Â' :: '£' :: rest => stripPound rest
  | c :: rest => c :: stripPound rest
  | [] => []

/-- The `.str` accessor step of `df['price'].str.replace('Â£','')`:
string cells get the replacement, any non-string cell becomes NaN. -/
def replaceArtifact (c : Cell) : Cell :=
  match c with
  | .str s => .str (String.mk (stripPound s.data))
  | _ => .nan

/-- One cell of `astype(float)`: strings must parse (`none` = raised
`ValueError`), numbers pass through, NaN stays NaN. -/
def cellToFloat? (c : Cell) : Option Cell :=
  match c with
  | .str s => (parseFloat? s).map .num
  | .num q => some (.num q)
  | .int z => some (.num (z : ℚ))
  | .nan => some .nan

/-- One cell of `astype(int)` on a float column: truncates toward zero;
NaN raises (`none`), as pandas refuses to cast NaN to integer. -/
def cellToInt? (c : Cell) : Option Cell :=
  match c with
  | .num q => some (.int (truncQ q))
  | .int z => some (.int z)
  | _ => none

/-- One vectorized column statement: applies `f` to every cell; if `f`
raises (`none`) anywhere, the whole statement raises and no cell is
written. -/
def colMap (f : Cell → Option Cell) : List Cell → Option (List Cell)
  | [] => some []
  | c :: cs =>
    match f c, colMap f cs with
    | some d, some ds => some (d :: ds)
    | _, _ => none

/-- Embedding of `clean_data` of src/app.py, acting on the price column.  Two
vectorized statements inside one `try/except`:
`df['price'] = df['price'].str.replace('Â£','').astype(float)` then
`df['price'] = df['price'].astype(int)`.  Each statement is
all-or-nothing: if it raises, the column keeps the state reached before
it, and the table is returned as-is (the except-arm only reports). -/
def clean_data (prices : List Cell) : List Cell :=
  match colMap (fun c => cellToFloat? (replaceArtifact c)) prices with
  | none => prices
  | some floats =>
    match colMap cellToInt? floats with
    | none => floats
    | some ints => ints

/-- Python `str.lower`, per character. -/
def lowerStr (s : String) : String := String.mk (s.data.map Char.toLower)

/-- Substring test (`needle in hay`); models Python's `in` and
the regex-free case of pandas `str.contains`. -/
def strContains (hay needle : String) : Bool :=
  (List.range (hay.data.length + 1)).any fun i =>
    needle.data.isPrefixOf (hay.data.drop i)

/-- Embedding of `detect_column` of src/app.py, over the table's column names.  First
loop: the first candidate that is (exactly, case-sensitively) among the
columns wins.  Second loop: for each column in table order, for each
candidate, if the candidate lowercased is a substring of the column
lowercased, that column is returned.  Falls through to `none`
(Python `None`); the function is total, so it never raises. -/
def detect_column (cols : List String) (possible_names : List String) :
    Option String :=
  match possible_names.find? (fun name => cols.contains name) with
  | some name => some name
  | none =>
    cols.find? fun col =>
      possible_names.any fun name => strContains (lowerStr col) (lowerStr name)

/-- A row of the dashboard's table: title, price, availability cells. -/
structure Row where
  title : Cell
  price : Cell
  availability : Cell
deriving DecidableEq, Repr

/-- The in-memory table (`st.session_state.df`). -/
abbrev Table := List Row

/-- Table form of `clean_data`: the two vectorized statements
read and write the `price` column; the other columns are untouched. -/
def cleanTable (t : Table) : Table :=
  t.zipWith (fun r p => { r with price := p }) (clean_data (t.map (·.price)))

/-- Model of `pd.to_numeric` with coercion on one cell, as the parsed value:
`none` is the coerced NaN. -/
def toNumeric? (c : Cell) : Option ℚ :=
  match c with
  | .str s => parseFloat? s
  | .num q => some q
  | .int z => some ((z : ℚ))
  | .nan => none

/-- Model of `pd.to_numeric` with coercion on one cell, as the stored cell. -/
def coerceCell (c : Cell) : Cell :=
  match toNumeric? c with
  | some q => .num q
  | none => .nan

/-- The in-place column assignment
`df[price_col] = pd.to_numeric(df[price_col], errors='coerce')`. -/
def coerceRow (r : Row) : Row := { r with price := coerceCell r.price }

/-- The price-filter section of `main` (lines 77-91).  It first mutates
the session table in place (numeric coercion of the price column), then
derives the view: `df.dropna(subset=[price_col])` restricted to
`price <= T`.  Returns (session table after the action, displayed view).
The slider clamps `T` to integers in the UI; the view is defined for any
threshold. -/
def priceFilterAction (t : Table) (T : ℚ) : Table × Table :=
  let coerced := t.map coerceRow
  (coerced, coerced.filter fun r =>
    match r.price with
    | .num q => decide (q ≤ T)
    | _ => false)

/-- Model of `str(cell)` and `astype(str)`: Python renders NaN as the string
`"nan"`.  The rendering of numeric cells is abstracted (no claim
stringifies a numeric title or availability cell). -/
def astypeStr (c : Cell) : String :=
  match c with
  | .str s => s
  | .int z => toString z
  | .num q => toString q
  | .nan => "nan"

/-- Lines 107-108 of `main`:
`df[availability_col].astype(str).str.lower().str.contains('in stock', na=False)`
used as a boolean mask on `df`. -/
def inStockView (t : Table) : Table :=
  t.filter fun r => strContains (lowerStr (astypeStr r.availability)) "in stock"

/-- The availability section as a state transition: (new session table,
displayed view).  The mask is computed from `df` without assignment. -/
def availabilityAction (t : Table) : Table × Table := (t, inStockView t)

/-- Characters Python's `re` module treats as metacharacters.  The two
brace characters are matched by code point (123 and 125). -/
def isRegexMeta (c : Char) : Bool :=
  ['.', '^', '$', '*', '+', '?', '(', ')', '[', ']', '\\', '|'].contains c
    || c.toNat == 123 || c.toNat == 125

/-- A user term free of regex metacharacters.  Pandas `str.contains`
defaults to `regex=True`, so the user-supplied search term is compiled
as a regular expression; on a regex-free term the compiled pattern
matches exactly the literal occurrences of the term, so substring
semantics and the program coincide.  (On a term with metacharacters the
program does regex matching — or raises `re.error` into the except-arm —
which this embedding does not model.) -/
def regexFree (term : String) : Bool :=
  term.data.all fun c => !(isRegexMeta c)

/-- Lines 119-124 of `main`: the text input is falsy when empty, so an
empty term displays nothing; otherwise
`df[title_col].astype(str).str.contains(term, case=False, na=False)`
selects rows.  `str.contains` compiles the term as a regex
(`regex=True` default); this embedding implements the `regexFree`
fragment, where that regex matches exactly the case-insensitive literal
substring occurrences of the term — theorems about non-empty terms
therefore carry a `regexFree` hypothesis. -/
def titleSearchView (t : Table) (term : String) : Table :=
  if term = "" then []
  else t.filter fun r =>
    strContains (lowerStr (astypeStr r.title)) (lowerStr term)

/-- The title-search section as a state transition. -/
def titleSearchAction (t : Table) (term : String) : Table × Table :=
  (t, titleSearchView t term)

/-- Extraction of one `article.product_pod`: `bad` models an exception
while reading the title anchor, the price element or the availability
element. -/
inductive ItemResult where
  | ok (title price availability : String)
  | bad
deriving DecidableEq, Repr

/-- Outcome of one page of the scrape loop: the fetch or parse raises
(`fail`), the `ol.row` container is absent (`noContainer`), or the page
parses to a list of product pods. -/
inductive PageResult where
  | fail
  | noContainer
  | parsed (items : List ItemResult)
deriving DecidableEq, Repr

/-- The record appended per book: `Book_Name`, raw price text, raw
availability text, all strings. -/
def rawRow (title price availability : String) : Row :=
  ⟨.str title, .str price, .str availability⟩

/-- The records appended while looping over one parsed page's items: each
ok item appends its record; the first bad item raises, ending that
page's loop — the records appended before it stay. -/
def extractItems : List ItemResult → List Row
  | [] => []
  | .ok t p a :: rest => rawRow t p a :: extractItems rest
  | .bad :: _ => []

/-- The rows one page contributes to `data`. -/
def pageRows : PageResult → List Row
  | .fail => []
  | .noContainer => []
  | .parsed items => extractItems items

/-- Embedding of `scrape_books_data` of src/app.py: visits the pages in order, each
page's body inside `try/except`, so a failing page contributes only the
records appended before its exception and the loop continues; `data`
accumulates across pages.  The page outcomes are the function's input,
standing for the network and the HTML parser (the source fixes five
pages; the loop's behaviour does not depend on that count). -/
def scrape_books_data (pages : List PageResult) : List Row :=
  pages.foldl (fun data p => data ++ pageRows p) []

/-- Outcome of an external acquisition (CSV read, SQL read): the value,
or a raised exception. -/
inductive Acq (α : Type) where
  | ok (a : α)
  | err
deriving DecidableEq, Repr

/-- The load-from-CSV action (lines 19-24): `pd.read_csv` inside
`try/except`; on failure the session table is not assigned. -/
def loadCSVAction (prev : Option Table) (read : Acq Table) : Option Table :=
  match read with
  | .ok t => some t
  | .err => prev

/-- The load-from-database action (lines 39-47): `connect_database`
returns a connection or `None` (its own exception caught); only with a
connection does `pd.read_sql` run, inside `try/except`.  On either
failure the session table is not assigned. -/
def loadDBAction (prev : Option Table) (conn : Bool) (read : Acq Table) :
    Option Table :=
  if conn then
    match read with
    | .ok t => some t
    | .err => prev
  else prev

/-- The scrape action (lines 27-36): `scrape_books_data` never raises
(every page failure is caught inside it), `pd.DataFrame(data)` and
`clean_data` never raise (the latter catches its own exceptions), and
the session table is assigned before the CSV save.  So the session table
is replaced unconditionally by the cleaned scrape result, whether or not
any record was acquired. -/
def scrapeAction (_prev : Option Table) (pages : List PageResult) :
    Option Table :=
  some (cleanTable (scrape_books_data pages))

/-- Minimum of the numeric prices (`df_clean[price_col].min()`). -/
def qMin : List ℚ → Option ℚ
  | [] => none
  | q :: qs => some (qs.foldl min q)

/-- Maximum of the numeric prices (`df_clean[price_col].max()`). -/
def qMax : List ℚ → Option ℚ
  | [] => none
  | q :: qs => some (qs.foldl max q)

/-- The numeric prices surviving coercion (the non-NaN entries of
`df_clean[price_col]`). -/
def numericPrices (t : Table) : List ℚ :=
  t.filterMap fun r => toNumeric? r.price

/-- Lines 80-89 of `main`: `min_price = int(min)`, `max_price = int(max)`,
`default_price = min(max_price, 50)`, and
`st.slider(min_value=min_price, max_value=max_price, value=default_price)`.
Returns (min bound, max bound, default); `none` models the raise caught
by the except-arm when no price is numeric (`int(nan)` raises). -/
def sliderParams (t : Table) : Option (ℤ × ℤ × ℤ) :=
  match qMin (numericPrices t), qMax (numericPrices t) with
  | some mn, some mx => some (truncQ mn, truncQ mx, min (truncQ mx) 50)
  | _, _ => none

/-! ## Helper lemmas -/

/-- A vectorized statement raises as soon as one cell raises. -/
lemma colMap_eq_none {f : Cell → Option Cell} {cs : List Cell} {c : Cell}
    (hc : c ∈ cs) (hfc : f c = none) : colMap f cs = none := by
  induction cs with
  | nil => cases hc
  | cons d ds ih =>
    rcases List.mem_cons.mp hc with rfl | hmem
    · simp [colMap, hfc]
    · cases hfd : f d
      · simp [colMap, hfd]
      · simp [colMap, hfd, ih hmem]

/-- A vectorized statement that raises nowhere writes `g` cell-wise. -/
lemma colMap_eq_map {f : Cell → Option Cell} {g : Cell → Cell} {cs : List Cell}
    (h : ∀ c ∈ cs, f c = some (g c)) : colMap f cs = some (cs.map g) := by
  induction cs with
  | nil => rfl
  | cons d ds ih =>
    have hd := h d (List.mem_cons_self d ds)
    have hds := ih fun c hc => h c (List.mem_cons_of_mem d hc)
    simp [colMap, hd, hds]

/-- The per-cell value of a fully successful first cleaning statement:
the price string with the artifact stripped, parsed as a float. -/
def floatOf (c : Cell) : Option ℚ :=
  match cellToFloat? (replaceArtifact c) with
  | some (Cell.num q) => some q
  | _ => none

lemma cellToFloat?_of_floatOf {c : Cell} {q : ℚ} (h : floatOf c = some q) :
    cellToFloat? (replaceArtifact c) = some (Cell.num q) := by
  unfold floatOf at h
  rcases hfc : cellToFloat? (replaceArtifact c) with _ | d
  · rw [hfc] at h; exact absurd h (by simp)
  · cases d <;> rw [hfc] at h <;> simp_all

/-- When every price cell strips-and-parses, `clean_data` truncates each
parsed value to an integer, cell-wise. -/
lemma clean_data_success {ps : List Cell}
    (h : ∀ c ∈ ps, (floatOf c).isSome) :
    clean_data ps = ps.map fun c => Cell.int (truncQ ((floatOf c).getD 0)) := by
  have h1 : colMap (fun c => cellToFloat? (replaceArtifact c)) ps
      = some (ps.map fun c => Cell.num ((floatOf c).getD 0)) := by
    refine colMap_eq_map fun c hc => ?_
    rcases hq : floatOf c with _ | q
    · exact absurd (h c hc) (by simp [hq])
    · rw [cellToFloat?_of_floatOf hq]; simp [hq]
  have h2 : colMap cellToInt? (ps.map fun c => Cell.num ((floatOf c).getD 0))
      = some (ps.map fun c => Cell.int (truncQ ((floatOf c).getD 0))) := by
    have := @colMap_eq_map cellToInt?
      (fun d => match d with
        | Cell.num q => Cell.int (truncQ q)
        | d => d)
      (ps.map fun c => Cell.num ((floatOf c).getD 0))
      (by
        intro d hd
        rcases List.mem_map.mp hd with ⟨c, _, rfl⟩
        rfl)
    rw [this, List.map_map]
    rfl
  simp [clean_data, h1, h2]

/-! ## Claims C1 and C2: the cleaner -/

/-- C1 counterexample.  The claim's price strings carry a plain `£`
(U+00A3), but `clean_data` only strips the two-character mojibake
artifact `Â£` (U+00C2 U+00A3); `float('£51.77')` then raises, the
exception is caught, and the whole table is returned with its price
strings unchanged — no numeric 51 or 23 is produced. -/
theorem c1_plain_pound_not_cleaned :
    clean_data [Cell.str "£51.77", Cell.str "£23.00"]
        = [Cell.str "£51.77", Cell.str "£23.00"] ∧
      Cell.str "£51.77" ≠ Cell.int 51 ∧ Cell.str "£23.00" ≠ Cell.int 23 := by
  decide

/-- C1 amended: for every raw table whose every price cell strips (of
the `Â£` artifact) and parses, `clean_data` replaces each price by its
parse truncated to an integer; in particular the artifact-bearing
strings `"Â£51.77"` and `"Â£23.00"` become 51 and 23 wherever they
occur. -/
theorem c1_clean_artifact_prices (ps : List Cell)
    (h : ∀ c ∈ ps, (floatOf c).isSome) (i j : ℕ)
    (hi : ps[i]? = some (Cell.str "Â£51.77"))
    (hj : ps[j]? = some (Cell.str "Â£23.00")) :
    (clean_data ps)[i]? = some (Cell.int 51) ∧
      (clean_data ps)[j]? = some (Cell.int 23) := by
  rw [clean_data_success h]
  rw [List.getElem?_map, List.getElem?_map, hi, hj]
  constructor <;> rfl

/-- C1 witness: the two-row artifact-form table cleans to 51 and 23. -/
theorem c1_clean_artifact_prices_witness :
    (clean_data [Cell.str "Â£51.77", Cell.str "Â£23.00"])[0]?
        = some (Cell.int 51) ∧
      (clean_data [Cell.str "Â£51.77", Cell.str "Â£23.00"])[1]?
        = some (Cell.int 23) :=
  c1_clean_artifact_prices [Cell.str "Â£51.77", Cell.str "Â£23.00"]
    (by decide) 0 1 (by decide) (by decide)

/-- C2 counterexample.  A malformed price string makes the vectorized
`astype(float)` raise for the whole column, so the well-formed row 0 is
NOT cleaned either: the table comes back with row 0 still holding the
raw string `"Â£51.77"`, not the integer 51 the claim promises. -/
theorem c2_malformed_aborts_all_rows :
    clean_data [Cell.str "Â£51.77", Cell.str "not a price"]
        = [Cell.str "Â£51.77", Cell.str "not a price"] ∧
      Cell.str "Â£51.77" ≠ Cell.int 51 := by
  decide

/-- C2 amended: a malformed price string aborts cleaning of every row —
when any price cell fails the strip-and-parse statement, the caught
exception leaves the whole price column unchanged, so no row (well-formed
or not) receives its cleaned integer value. -/
theorem c2_malformed_leaves_column_unchanged (ps : List Cell) (c : Cell)
    (hc : c ∈ ps) (hbad : cellToFloat? (replaceArtifact c) = none) :
    clean_data ps = ps := by
  unfold clean_data
  rw [colMap_eq_none hc hbad]

/-- C2 witness: the amended claim at the two-row counterexample table. -/
theorem c2_malformed_leaves_column_unchanged_witness :
    clean_data [Cell.str "Â£51.77", Cell.str "not a price"]
      = [Cell.str "Â£51.77", Cell.str "not a price"] :=
  c2_malformed_leaves_column_unchanged _ (Cell.str "not a price")
    (by decide) (by decide)

/-! ## Claim C3: are the view operations read-only? -/

/-- C3 counterexample.  The price-filter section executes
`df[price_col] = pd.to_numeric(df[price_col], errors='coerce')` on the
session table itself, so running it on a table whose price is the
unparsable string `"abc"` leaves the session table with a missing price
— not equal to what it was before the operation. -/
theorem c3_price_filter_mutates :
    (priceFilterAction [⟨Cell.str "A", Cell.str "abc", Cell.str "x"⟩] 50).1
      ≠ [⟨Cell.str "A", Cell.str "abc", Cell.str "x"⟩] := by
  decide

/-- C3 amended: the availability filter and the title search are
read-only (the session table after them equals the one before); the
price-ceiling filter instead rewrites the session table's price column
in place by numeric coercion (parsed values stored as numbers,
unparsable ones as missing). -/
theorem c3_views_session_state (t : Table) (term : String) (T : ℚ) :
    (availabilityAction t).1 = t ∧
      (titleSearchAction t term).1 = t ∧
      (priceFilterAction t T).1 = t.map coerceRow :=
  ⟨rfl, rfl, rfl⟩

/-! ## Claim C4: load failures and prior state -/

/-- C4 counterexample.  A scrape run in which all five pages fail
acquires no records, yet the session table is still replaced by the
(empty) scrape result: the prior one-row table is lost, contradicting
"the operation aborts leaving the prior in-memory session table
intact". -/
theorem c4_empty_scrape_clobbers_state :
    scrapeAction (some [⟨Cell.str "A", Cell.int 51, Cell.str "x"⟩])
        [PageResult.fail, PageResult.fail, PageResult.fail, PageResult.fail,
          PageResult.fail]
        = some ([] : Table) ∧
      some ([] : Table) ≠ some [⟨Cell.str "A", Cell.int 51, Cell.str "x"⟩] := by
  decide

/-- C4 amended: CSV-load and database-load acquisition failures abort
leaving the prior session table intact (also when the database
connection itself fails), but the scrape action replaces the session
table unconditionally with the cleaned scrape result — in particular a
scrape run acquiring no records replaces the prior table with the empty
table. -/
theorem c4_load_failure_state (prev : Option Table) (conn : Bool)
    (read : Acq Table) (pages : List PageResult)
    (hempty : scrape_books_data pages = []) :
    loadCSVAction prev Acq.err = prev ∧
      loadDBAction prev conn Acq.err = prev ∧
      loadDBAction prev false read = prev ∧
      scrapeAction prev pages = some (cleanTable (scrape_books_data pages)) ∧
      scrapeAction prev pages = some ([] : Table) := by
  refine ⟨rfl, ?_, rfl, rfl, ?_⟩
  · cases conn <;> rfl
  · simp [scrapeAction, hempty, cleanTable]

/-- C4 witness: the amended claim at a concrete prior table and a
five-page all-failing scrape run. -/
theorem c4_load_failure_state_witness :
    loadCSVAction (some [⟨Cell.str "A", Cell.int 51, Cell.str "x"⟩]) Acq.err
        = some [⟨Cell.str "A", Cell.int 51, Cell.str "x"⟩] ∧
      loadDBAction (some [⟨Cell.str "A", Cell.int 51, Cell.str "x"⟩]) true
          Acq.err = some [⟨Cell.str "A", Cell.int 51, Cell.str "x"⟩] ∧
      loadDBAction (some [⟨Cell.str "A", Cell.int 51, Cell.str "x"⟩]) false
          (Acq.ok []) = some [⟨Cell.str "A", Cell.int 51, Cell.str "x"⟩] ∧
      scrapeAction (some [⟨Cell.str "A", Cell.int 51, Cell.str "x"⟩])
          [PageResult.fail, PageResult.fail]
          = some (cleanTable (scrape_books_data
              [PageResult.fail, PageResult.fail])) ∧
      scrapeAction (some [⟨Cell.str "A", Cell.int 51, Cell.str "x"⟩])
          [PageResult.fail, PageResult.fail] = some ([] : Table) :=
  c4_load_failure_state (some [⟨Cell.str "A", Cell.int 51, Cell.str "x"⟩])
    true (Acq.ok []) [PageResult.fail, PageResult.fail] (by decide)

/-! ## Claim C5: the column detector -/

/-- Lemma: `find?` returns the first element satisfying the predicate. -/
lemma find?_append_first {α : Type} (p : α → Bool) (pre : List α) (x : α)
    (post : List α) (hpre : ∀ y ∈ pre, p y = false) (hx : p x = true) :
    (pre ++ x :: post).find? p = some x := by
  induction pre with
  | nil => simp [List.find?_cons_of_pos, hx]
  | cons a as ih =>
    have ha := hpre a (List.mem_cons_self a as)
    have : (as ++ x :: post).find? p = some x :=
      ih fun y hy => hpre y (List.mem_cons_of_mem a hy)
    simpa [List.find?_cons, ha] using this

/-- C5: the detector's contract.  (1) If the candidate list decomposes
around a candidate `n` that matches a column exactly and case-sensitively
while no earlier candidate does, `detect_column` returns `n`.  (2) If no
candidate matches exactly, and the column list decomposes around the
first column `c` (in table order) whose lowercased name contains some
lowercased candidate as a substring, `detect_column` returns `c`.
(3) With neither kind of match it returns `none` ("not found"); being a
total function, it never raises. -/
theorem c5_detect_column_spec (cols names : List String) :
    (∀ pre n post, names = pre ++ n :: post → n ∈ cols →
      (∀ m ∈ pre, m ∉ cols) → detect_column cols names = some n) ∧
    ((∀ n ∈ names, n ∉ cols) →
      ∀ pre c post, cols = pre ++ c :: post →
        (∃ n ∈ names, strContains (lowerStr c) (lowerStr n) = true) →
        (∀ d ∈ pre, ∀ n ∈ names, strContains (lowerStr d) (lowerStr n) = false) →
        detect_column cols names = some c) ∧
    ((∀ n ∈ names, n ∉ cols) →
      (∀ c ∈ cols, ∀ n ∈ names, strContains (lowerStr c) (lowerStr n) = false) →
      detect_column cols names = none) := by
  refine ⟨?_, ?_, ?_⟩
  · intro pre n post hdec hn hpre
    have hfind : names.find? (fun m => cols.contains m) = some n := by
      subst hdec
      refine find?_append_first _ pre n post ?_ ?_
      · intro y hy
        simp [List.contains, List.elem_eq_mem, hpre y hy]
      · simp [List.contains, List.elem_eq_mem, hn]
    unfold detect_column
    rw [hfind]
  · intro hnone pre c post hdec hex hpre
    have hfind1 : names.find? (fun m => cols.contains m) = none := by
      rw [List.find?_eq_none]
      intro x hx
      simp [List.contains, List.elem_eq_mem, hnone x hx]
    have hfind2 : cols.find? (fun col =>
        names.any fun name => strContains (lowerStr col) (lowerStr name))
        = some c := by
      subst hdec
      refine find?_append_first _ pre c post ?_ ?_
      · intro d hd
        simp only [Bool.not_eq_true, List.any_eq_false]
        intro nm hnm
        exact hpre d hd nm hnm
      · obtain ⟨n, hnmem, hsub⟩ := hex
        simp only [List.any_eq_true]
        exact ⟨n, hnmem, hsub⟩
    unfold detect_column
    rw [hfind1]
    exact hfind2
  · intro hnone hnosub
    have hfind1 : names.find? (fun m => cols.contains m) = none := by
      rw [List.find?_eq_none]
      intro x hx
      simp [List.contains, List.elem_eq_mem, hnone x hx]
    have hfind2 : cols.find? (fun col =>
        names.any fun name => strContains (lowerStr col) (lowerStr name))
        = none := by
      rw [List.find?_eq_none]
      intro d hd
      simp only [Bool.not_eq_true, List.any_eq_false]
      intro nm hnm
      exact hnosub d hd nm hnm
    unfold detect_column
    rw [hfind1]
    exact hfind2

/-- C5 witness: the exact-match clause on the scraped schema (candidate
`"price"` wins immediately), and — through a second application — the
substring clause on a schema where only `"price_colour"` contains a
candidate. -/
theorem c5_detect_column_spec_witness :
    detect_column ["Book_Name", "price", "availability"]
        ["price", "Price", "price_color"] = some "price" ∧
      detect_column ["Book_Name", "price_colour"] ["price", "Price"]
        = some "price_colour" := by
  refine ⟨?_, ?_⟩
  · exact (c5_detect_column_spec ["Book_Name", "price", "availability"]
      ["price", "Price", "price_color"]).1 [] "price" ["Price", "price_color"]
      rfl (by decide) (by decide)
  · exact ((c5_detect_column_spec ["Book_Name", "price_colour"]
      ["price", "Price"]).2.1 (by decide) ["Book_Name"] "price_colour" []
      rfl (by decide) (by decide))

/-! ## Claim C6: the price-ceiling filter -/

/-- The displayed price view is exactly the coercion of the rows whose
numeric price is at most the threshold; unparsable prices are dropped. -/
lemma priceView_eq (t : Table) (T : ℚ) :
    (priceFilterAction t T).2 = t.filterMap fun r =>
      match toNumeric? r.price with
      | some q => if q ≤ T then some (coerceRow r) else none
      | none => none := by
  induction t with
  | nil => rfl
  | cons r t ih =>
    simp only [priceFilterAction, List.map_cons, List.filter_cons,
      List.filterMap_cons] at *
    cases hq : toNumeric? r.price with
    | none => simpa [coerceRow, coerceCell, hq] using ih
    | some q =>
      by_cases hle : q ≤ T
      · simpa [coerceRow, coerceCell, hq, hle] using ih
      · simpa [coerceRow, coerceCell, hq, hle] using ih

/-- Raising the threshold can only grow the displayed view. -/
lemma priceView_mono (t : Table) {T1 T2 : ℚ} (h : T1 ≤ T2) :
    ((priceFilterAction t T1).2).length ≤ ((priceFilterAction t T2).2).length := by
  refine List.Sublist.length_le (List.monotone_filter_right _ ?_)
  intro r hr
  cases hp : r.price with
  | num q =>
    rw [hp] at hr
    simp only [decide_eq_true_eq] at hr
    simp only [decide_eq_true_eq]
    exact le_trans hr h
  | str s => rw [hp] at hr; cases hr
  | int z => rw [hp] at hr; cases hr
  | nan => rw [hp] at hr; cases hr

/-- C6: for every table and thresholds `T1 ≤ T2`, the price-ceiling
filter's result is exactly the (coerced) rows whose numeric price is at
most `T1` — rows with unparsable price are dropped — and the view's size
is monotonically non-decreasing in the threshold. -/
theorem c6_price_filter_spec (t : Table) (T1 T2 : ℚ) (h : T1 ≤ T2) :
    (priceFilterAction t T1).2 = (t.filterMap fun r =>
        match toNumeric? r.price with
        | some q => if q ≤ T1 then some (coerceRow r) else none
        | none => none) ∧
      ((priceFilterAction t T1).2).length ≤ ((priceFilterAction t T2).2).length :=
  ⟨priceView_eq t T1, priceView_mono t h⟩

/-- C6 witness: a two-row table with one parsable and one unparsable
price, at thresholds 20 ≤ 60. -/
theorem c6_price_filter_spec_witness :
    (priceFilterAction [⟨Cell.nan, Cell.str "51.77", Cell.nan⟩,
          ⟨Cell.nan, Cell.str "abc", Cell.nan⟩] 20).2
        = ([⟨Cell.nan, Cell.str "51.77", Cell.nan⟩,
            ⟨Cell.nan, Cell.str "abc", Cell.nan⟩].filterMap fun r =>
            match toNumeric? r.price with
            | some q => if q ≤ 20 then some (coerceRow r) else none
            | none => none) ∧
      ((priceFilterAction [⟨Cell.nan, Cell.str "51.77", Cell.nan⟩,
          ⟨Cell.nan, Cell.str "abc", Cell.nan⟩] 20).2).length ≤
        ((priceFilterAction [⟨Cell.nan, Cell.str "51.77", Cell.nan⟩,
          ⟨Cell.nan, Cell.str "abc", Cell.nan⟩] 60).2).length :=
  c6_price_filter_spec _ 20 60 (by norm_num)

/-! ## Claim C7: the availability filter -/

/-- C7: the availability filter selects exactly the rows whose
availability, stringified and lowercased, contains `"in stock"` as a
substring; a missing availability stringifies to `"nan"` and is
excluded without erroring; `"In stock (19 available)"` is included and
`"Out of stock"` excluded. -/
theorem c7_availability_filter_spec (t : Table) (r : Row) :
    inStockView t = t.filter (fun row =>
        strContains (lowerStr (astypeStr row.availability)) "in stock") ∧
      (r ∈ inStockView t ↔ r ∈ t ∧
        strContains (lowerStr (astypeStr r.availability)) "in stock" = true) ∧
      (r.availability = Cell.nan → r ∉ inStockView t) ∧
      (r.availability = Cell.str "In stock (19 available)" → r ∈ t →
        r ∈ inStockView t) ∧
      (r.availability = Cell.str "Out of stock" → r ∉ inStockView t) := by
  refine ⟨rfl, List.mem_filter, ?_, ?_, ?_⟩
  · intro hna hmem
    have hp := (List.mem_filter.mp hmem).2
    rw [hna] at hp
    exact absurd hp (by decide)
  · intro ha hmem
    refine List.mem_filter.mpr ⟨hmem, ?_⟩
    rw [ha]
    decide
  · intro ha hmem
    have hp := (List.mem_filter.mp hmem).2
    rw [ha] at hp
    exact absurd hp (by decide)

/-- C7 witness: on a three-row table, the in-stock row is kept, the
out-of-stock row and the missing-availability row are dropped. -/
theorem c7_availability_filter_spec_witness :
    (⟨Cell.str "T", Cell.int 1, Cell.str "In stock (19 available)"⟩ : Row)
        ∈ inStockView [⟨Cell.str "T", Cell.int 1,
            Cell.str "In stock (19 available)"⟩,
          ⟨Cell.str "U", Cell.int 2, Cell.str "Out of stock"⟩,
          ⟨Cell.str "V", Cell.int 3, Cell.nan⟩] ∧
      (⟨Cell.str "U", Cell.int 2, Cell.str "Out of stock"⟩ : Row)
        ∉ inStockView [⟨Cell.str "T", Cell.int 1,
            Cell.str "In stock (19 available)"⟩,
          ⟨Cell.str "U", Cell.int 2, Cell.str "Out of stock"⟩,
          ⟨Cell.str "V", Cell.int 3, Cell.nan⟩] ∧
      (⟨Cell.str "V", Cell.int 3, Cell.nan⟩ : Row)
        ∉ inStockView [⟨Cell.str "T", Cell.int 1,
            Cell.str "In stock (19 available)"⟩,
          ⟨Cell.str "U", Cell.int 2, Cell.str "Out of stock"⟩,
          ⟨Cell.str "V", Cell.int 3, Cell.nan⟩] :=
  ⟨(c7_availability_filter_spec _ _).2.2.2.1 rfl (by decide),
   (c7_availability_filter_spec _ _).2.2.2.2 rfl,
   (c7_availability_filter_spec _ _).2.2.1 rfl⟩

/-! ## Claim C8: the title search -/

/-- C8 counterexample.  `astype(str)` renders a missing title as the
string `"nan"`, so for the non-empty search term `"a"` (a substring of
`"nan"`) a row with missing title is returned — the claim says rows with
missing title are excluded for every non-empty term.  The term `"a"`
has no regex metacharacter, so on it the program's regex matching is
exactly this substring test. -/
theorem c8_missing_title_matched :
    ("a" : String) ≠ "" ∧
      titleSearchView [⟨Cell.nan, Cell.int 1, Cell.nan⟩] "a"
        = [⟨Cell.nan, Cell.int 1, Cell.nan⟩] := by
  decide

/-- C8 amended: for every non-empty term free of regex metacharacters
(pandas `str.contains` compiles the term as a regex, so only on such
terms does the program do substring matching at all), the title search
returns exactly the rows whose stringified title (missing titles
stringify to `"nan"`) contains the term as a case-insensitive
substring; a missing-title row is excluded only when the lowercased
term is not a substring of `"nan"`; the empty term yields zero results;
and searching `"light"` over `["A Light in the Attic", "Sharp
Objects"]` returns exactly the first. -/
theorem c8_title_search_spec (t : Table) (term : String) (h : term ≠ "")
    (hrf : regexFree term = true) :
    titleSearchView t term = t.filter (fun r =>
        strContains (lowerStr (astypeStr r.title)) (lowerStr term)) ∧
      titleSearchView t "" = [] ∧
      (strContains "nan" (lowerStr term) = false →
        ∀ r ∈ titleSearchView t term, r.title ≠ Cell.nan) ∧
      titleSearchView
          [⟨Cell.str "A Light in the Attic", Cell.int 1, Cell.nan⟩,
            ⟨Cell.str "Sharp Objects", Cell.int 2, Cell.nan⟩] "light"
        = [⟨Cell.str "A Light in the Attic", Cell.int 1, Cell.nan⟩] := by
  refine ⟨by simp [titleSearchView, h], rfl, ?_, by decide⟩
  intro hnan r hr hteq
  unfold titleSearchView at hr
  rw [if_neg h] at hr
  have hp := (List.mem_filter.mp hr).2
  rw [hteq] at hp
  have hs : lowerStr (astypeStr Cell.nan) = "nan" := rfl
  rw [hs, hnan] at hp
  cases hp

/-- C8 witness: the amended claim at the two-book table with the
non-empty, regex-free term `"light"`. -/
theorem c8_title_search_spec_witness :
    titleSearchView [⟨Cell.str "A Light in the Attic", Cell.int 1, Cell.nan⟩,
          ⟨Cell.str "Sharp Objects", Cell.int 2, Cell.nan⟩] "light"
        = ([⟨Cell.str "A Light in the Attic", Cell.int 1, Cell.nan⟩,
            ⟨Cell.str "Sharp Objects", Cell.int 2, Cell.nan⟩].filter fun r =>
            strContains (lowerStr (astypeStr r.title)) (lowerStr "light")) ∧
      titleSearchView [⟨Cell.str "A Light in the Attic", Cell.int 1, Cell.nan⟩,
          ⟨Cell.str "Sharp Objects", Cell.int 2, Cell.nan⟩] "" = [] ∧
      (strContains "nan" (lowerStr "light") = false →
        ∀ r ∈ titleSearchView
            [⟨Cell.str "A Light in the Attic", Cell.int 1, Cell.nan⟩,
              ⟨Cell.str "Sharp Objects", Cell.int 2, Cell.nan⟩] "light",
          r.title ≠ Cell.nan) ∧
      titleSearchView
          [⟨Cell.str "A Light in the Attic", Cell.int 1, Cell.nan⟩,
            ⟨Cell.str "Sharp Objects", Cell.int 2, Cell.nan⟩] "light"
        = [⟨Cell.str "A Light in the Attic", Cell.int 1, Cell.nan⟩] :=
  c8_title_search_spec _ "light" (by decide) (by decide)

/-! ## Claim C9: the scraper's page loop -/

/-- Folding page contributions from any accumulator appends the
concatenation of the per-page rows. -/
lemma scrape_foldl (pages : List PageResult) (acc : List Row) :
    pages.foldl (fun data p => data ++ pageRows p) acc
      = acc ++ (pages.map pageRows).flatten := by
  induction pages generalizing acc with
  | nil => simp
  | cons p ps ih => simp [ih, List.append_assoc]

/-- C9: the scraper returns the per-page record lists concatenated in
page order (items in page order, then item order within each page), and
a failing page is caught locally and contributes nothing — the loop
continues and the partial results of the pages around it are still
returned. -/
theorem c9_scraper_partial_results (pages : List PageResult) :
    scrape_books_data pages = (pages.map pageRows).flatten ∧
      ∀ pre post, scrape_books_data (pre ++ PageResult.fail :: post)
        = scrape_books_data pre ++ scrape_books_data post := by
  constructor
  · simpa using scrape_foldl pages []
  · intro pre post
    simp only [scrape_books_data, scrape_foldl]
    simp [pageRows]

/-! ## Claim C10: the slider default -/

/-- C10 counterexample.  A table whose single numeric price is 50.5 has
every parseable price exceeding 50, yet `int()` truncation makes the
slider minimum `int(50.5) = 50` equal to the default
`min(int(50.5), 50) = 50`: the default is not strictly below the
minimum bound, and lies inside the slider range `[50, 50]`. -/
theorem c10_truncation_boundary :
    (∀ q ∈ numericPrices [⟨Cell.nan, Cell.num (mkRat 101 2), Cell.nan⟩],
        (50 : ℚ) < q) ∧
      numericPrices [⟨Cell.nan, Cell.num (mkRat 101 2), Cell.nan⟩] ≠ [] ∧
      ∀ mn mx dflt,
        sliderParams [⟨Cell.nan, Cell.num (mkRat 101 2), Cell.nan⟩]
            = some (mn, mx, dflt) → ¬ dflt < mn := by
  refine ⟨by decide, by decide, ?_⟩
  intro mn mx dflt hsp
  have hval : sliderParams [⟨Cell.nan, Cell.num (mkRat 101 2), Cell.nan⟩]
      = some (50, 50, 50) := by decide
  rw [hval] at hsp
  simp only [Option.some.injEq, Prod.mk.injEq] at hsp
  obtain ⟨rfl, rfl, rfl⟩ := hsp
  decide

/-- A lower bound on every element bounds the running minimum. -/
lemma foldl_min_ge {b q : ℚ} {l : List ℚ} (hq : b ≤ q) (hl : ∀ x ∈ l, b ≤ x) :
    b ≤ l.foldl min q := by
  induction l generalizing q with
  | nil => exact hq
  | cons x xs ih =>
    exact ih (le_min hq (hl x (List.mem_cons_self x xs)))
      fun y hy => hl y (List.mem_cons_of_mem x hy)

/-- Python `int()` truncation agrees with the floor on non-negative
rationals. -/
lemma truncQ_eq_floor {q : ℚ} (hq : 0 ≤ q) : truncQ q = ⌊q⌋ := by
  rw [Rat.floor_def, truncQ]
  exact Int.tdiv_eq_ediv (Rat.num_nonneg.mpr hq) (Int.ofNat_nonneg q.den)

/-- C10 amended: when the table has a numeric price and every numeric
price is at least 51 (so the truncated minimum exceeds 50), the slider
default `min(int(max), 50) = 50` is strictly below the slider's minimum
bound `int(min) ≥ 51` — the slider is constructed with a default outside
its own `[min, max]` range.  (At 50 < price < 51 the truncation makes
default and minimum coincide, so "exceeds 50" alone is not enough.) -/
theorem c10_default_outside_range (t : Table)
    (hne : numericPrices t ≠ [])
    (h51 : ∀ q ∈ numericPrices t, (51 : ℚ) ≤ q) :
    ∃ mn mx dflt, sliderParams t = some (mn, mx, dflt) ∧
      dflt ≤ 50 ∧ 51 ≤ mn ∧ dflt < mn := by
  rcases hl : numericPrices t with _ | ⟨q, qs⟩
  · exact absurd hl hne
  have hq51 : (51 : ℚ) ≤ q := h51 q (by rw [hl]; exact List.mem_cons_self q qs)
  have hqs51 : ∀ x ∈ qs, (51 : ℚ) ≤ x := fun x hx =>
    h51 x (by rw [hl]; exact List.mem_cons_of_mem q hx)
  have hmin : (51 : ℚ) ≤ qs.foldl min q := foldl_min_ge hq51 hqs51
  have h0 : (0 : ℚ) ≤ qs.foldl min q := le_trans (by norm_num) hmin
  have hmn : (51 : ℤ) ≤ truncQ (qs.foldl min q) := by
    rw [truncQ_eq_floor h0]
    exact Int.le_floor.mpr (by exact_mod_cast hmin)
  refine ⟨truncQ (qs.foldl min q), truncQ (qs.foldl max q),
    min (truncQ (qs.foldl max q)) 50, ?_, min_le_right _ _, hmn, ?_⟩
  · simp [sliderParams, hl, qMin, qMax]
  · exact lt_of_le_of_lt (min_le_right _ _) (lt_of_lt_of_le (by norm_num) hmn)

/-- C10 witness: a one-row table with integer price 60. -/
theorem c10_default_outside_range_witness :
    ∃ mn mx dflt,
      sliderParams [⟨Cell.nan, Cell.int 60, Cell.nan⟩] = some (mn, mx, dflt) ∧
        dflt ≤ 50 ∧ 51 ≤ mn ∧ dflt < mn :=
  c10_default_outside_range [⟨Cell.nan, Cell.int 60, Cell.nan⟩]
    (by decide) (by decide)
